import Mathlib

/-!
Verification development for the cluster-control dashboard scripts
(rc/dashboard.py and swiftbar.py).

The Python code is shallowly embedded: timestamps and durations are
modelled as integer microsecond counts (the resolution of Python
datetime / timedelta), strings as Lean strings, and Python lists/dicts
as Lean lists and structures.  The datetime library functions
fromisoformat / isoformat are treated as an external collaborator and
passed in as a parameter record DT, following the design note that
date parsing is an external pure function from strings to optional
timestamps.  I/O (subprocess, ssh, filesystem stat/glob) is modelled by
explicit inputs: the remote transport is a function from the command
line to a run result, and the filesystem is a list of directory entries
carrying the stat fields and glob results the code reads.
-/

/-! ## Python string helpers

Python str.strip, str.split(sep) on single-character separators, and
the decimal formatting used by timedelta.__str__, modelled on lists of
characters. -/

/-- Whitespace characters stripped by Python str.strip(). -/
def isPySpace (c : Char) : Bool :=
  c = ' ' || c = '\t' || c = '\n' || c = '\r' || c = '\x0b' || c = '\x0c'

/-- Model of Python str.strip(): drop whitespace at both ends. -/
def pyStrip (l : List Char) : List Char :=
  ((l.dropWhile isPySpace).reverse.dropWhile isPySpace).reverse

/-- Model of Python str.split(sep) for a one-character separator:
splits at every occurrence, keeping empty fields, and yields one field
even for the empty string. -/
def splitOnChar (sep : Char) : List Char → List (List Char)
  | [] => [[]]
  | c :: cs =>
    let r := splitOnChar sep cs
    if c = sep then [] :: r
    else
      match r with
      | t :: ts => (c :: t) :: ts
      | [] => [[c]]

/-- Decimal digit character, as produced by Python %d formatting. -/
def decDigit : Nat → Char
  | 0 => '0'
  | 1 => '1'
  | 2 => '2'
  | 3 => '3'
  | 4 => '4'
  | 5 => '5'
  | 6 => '6'
  | 7 => '7'
  | 8 => '8'
  | 9 => '9'
  | _ => '*'

/-- Fuel-indexed decimal digit expansion; fuel n + 1 always suffices. -/
def decCharsAux : Nat → Nat → List Char
  | 0, _ => []
  | fuel + 1, n =>
    if n < 10 then [decDigit n]
    else decCharsAux fuel (n / 10) ++ [decDigit (n % 10)]

/-- Decimal digit string of a natural number (Python "%d" % n for n ≥ 0). -/
def decChars (n : Nat) : List Char := decCharsAux (n + 1) n

/-- Python "%d" % i for a possibly negative integer. -/
def intChars (i : Int) : List Char :=
  if i < 0 then '-' :: decChars i.natAbs else decChars i.natAbs

/-- Python "%02d" % n: zero-pad to width two. -/
def pad2 (n : Nat) : List Char :=
  if n < 10 then '0' :: decChars n else decChars n

/-- Python "%06d" % n: zero-pad to width six. -/
def pad6 (n : Nat) : List Char :=
  List.replicate (6 - (decChars n).length) '0' ++ decChars n

/-! ## Python timedelta string formatting

Python timedelta normalises a duration of usec microseconds into
days (any sign), seconds in [0, 86400) and microseconds in [0, 10^6);
str(timedelta) prints "[D day(s), ]H:MM:SS[.ffffff]", with the
fractional part present exactly when the microsecond component is
non-zero. -/

/-- Days component of the normalised timedelta (floor division). -/
def tdDays (usec : Int) : Int := usec.fdiv 86400000000

/-- Non-negative remainder of the normalised timedelta, in microseconds. -/
def tdRem (usec : Int) : Nat := (usec - tdDays usec * 86400000000).toNat

/-- Microsecond component of the normalised timedelta. -/
def tdMicro (usec : Int) : Nat := tdRem usec % 1000000

/-- Character list of str(timedelta) without the fractional part. -/
def fmtWholeChars (usec : Int) : List Char :=
  let secs := tdRem usec / 1000000
  let mm := secs / 60
  let ss := secs % 60
  let hh := mm / 60
  let mm2 := mm % 60
  let core := decChars hh ++ ':' :: pad2 mm2 ++ ':' :: pad2 ss
  if tdDays usec = 0 then core
  else
    intChars (tdDays usec) ++ (' ' :: 'd' :: 'a' :: 'y' :: []) ++
      (if (tdDays usec).natAbs = 1 then [] else ['s']) ++ (',' :: ' ' :: []) ++ core

/-- Character list of str(timedelta). -/
def fmtTimedeltaChars (usec : Int) : List Char :=
  if tdMicro usec = 0 then fmtWholeChars usec
  else fmtWholeChars usec ++ '.' :: pad6 (tdMicro usec)

/-- str(timedelta) for a duration of usec microseconds. -/
def fmtTimedelta (usec : Int) : String := ⟨fmtTimedeltaChars usec⟩

/-- str(timedelta) truncated to whole seconds (the display form). -/
def fmtTimedeltaWhole (usec : Int) : String := ⟨fmtWholeChars usec⟩

/-! ## The datetime collaborator -/

/-- External datetime library interface: datetime.fromisoformat (returning
none where Python raises ValueError) and datetime.isoformat, over
timestamps measured in microseconds. -/
structure DT where
  fromiso : String → Option Int
  isofmt : Int → String

/-! ## Queue parser (rc/dashboard.py parse_queue) -/

/-- A job record as emitted by parse_queue: the four squeue fields plus
the derived time_pending field. -/
structure QJob where
  job_name : String
  status : String
  time_left : String
  time_started : String
  time_pending : Option String
deriving DecidableEq, Repr

/-- One iteration of the parse_queue loop on a single line: blank lines
and lines without exactly four tab-separated fields yield no record;
an unparseable fourth field is a fatal error; otherwise a record is
built, with time_pending set only for PENDING jobs with a non-zero
(truthy) elapsed duration. -/
def parseLine (dt : DT) (now : Int) (line : List Char) : Except String (Option QJob) :=
  if pyStrip line = [] then .ok none
  else
    match splitOnChar '\t' line with
    | [jn, st, tl, tss] =>
      match dt.fromiso ⟨tss⟩ with
      | none => .error ("Invalid isoformat string: " ++ (⟨tss⟩ : String))
      | some ts =>
        let tp : Option Int := if (⟨st⟩ : String) = "PENDING" then some (now - ts) else none
        .ok (some
          { job_name := ⟨jn⟩
            status := ⟨st⟩
            time_left := ⟨tl⟩
            time_started := dt.isofmt ts
            time_pending :=
              match tp with
              | some d => if d ≠ 0 then some (fmtTimedelta d) else none
              | none => none })
    | _ => .ok none

/-- The parse_queue loop over the data lines (everything after the
header): the first fatal line aborts the whole call, a skipped line
contributes nothing, and a parsed line appends its record in order. -/
def parseDataLines (dt : DT) (now : Int) : List (List Char) → Except String (List QJob)
  | [] => .ok []
  | l :: ls =>
    match parseLine dt now l with
    | .error e => .error e
    | .ok j =>
      match parseDataLines dt now ls with
      | .error e => .error e
      | .ok rest =>
        match j with
        | some job => .ok (job :: rest)
        | none => .ok rest

/-- The data lines of the raw squeue output: strip the whole text, split
on newlines, and drop the header line. -/
def dataLines (output : String) : List (List Char) :=
  (splitOnChar '\n' (pyStrip output.data)).drop 1

/-- parse_queue from rc/dashboard.py: parse the raw squeue output into
job records, parameterised by the datetime collaborator and the value
of datetime.now() at the time of the call. -/
def parse_queue (dt : DT) (now : Int) (output : String) : Except String (List QJob) :=
  parseDataLines dt now (dataLines output)

instance exceptDecEq {ε α : Type} [DecidableEq ε] [DecidableEq α] :
    DecidableEq (Except ε α) := fun a b =>
  match a, b with
  | .ok x, .ok y =>
    if h : x = y then isTrue (by rw [h])
    else isFalse (fun hc => by cases hc; exact h rfl)
  | .error x, .error y =>
    if h : x = y then isTrue (by rw [h])
    else isFalse (fun hc => by cases hc; exact h rfl)
  | .ok _, .error _ => isFalse (fun hc => by cases hc)
  | .error _, .ok _ => isFalse (fun hc => by cases hc)

/-- Whether an Except value is a successful result. -/
def exceptIsOk (x : Except String (List QJob)) : Bool :=
  match x with
  | .ok _ => true
  | .error _ => false

/-- Number of records in a successful result (zero on error). -/
def exceptLen (x : Except String (List QJob)) : Nat :=
  match x with
  | .ok js => js.length
  | .error _ => 0

/-- A concrete datetime collaborator used for concrete evaluations:
recognises one ISO timestamp, mapped to microsecond 0. -/
def dt1 : DT :=
  { fromiso := fun s => if s = "2024-01-01T00:00:00" then some 0 else none
    isofmt := fun i => if i = 0 then "2024-01-01T00:00:00" else "" }

/-! ## Recency filter (rc/dashboard.py get_recent, get_last_activity_time) -/

/-- A top-level entry of the experiments directory, carrying the stat
fields and glob results that rc/dashboard.py reads: the entry name,
whether it is a directory, its st_ctime and st_mtime, and the st_mtime
values of the files matching output/*.txt inside it (all timestamps in
microseconds). -/
structure FSEntry where
  name : String
  is_dir : Bool
  st_ctime : Int
  st_mtime : Int
  outputTxtMtimes : List Int
deriving DecidableEq, Repr

/-- An experiment record as emitted by get_recent after format_dates:
the directory name and the isoformat string of its activity time. -/
structure ExpRecord where
  experiment_name : String
  time_activity : String
deriving DecidableEq, Repr

/-- get_last_activity_time from rc/dashboard.py: the maximum st_mtime of
the files matching output/*.txt, falling back to the directory's own
st_mtime when there are none. -/
def get_last_activity_time (e : FSEntry) : Int :=
  match e.outputTxtMtimes with
  | [] => e.st_mtime
  | t :: ts => ts.foldl max t

/-- get_recent from rc/dashboard.py: keep the top-level directories
created at or after the creation cutoff, compute their activity times,
and emit records for those whose activity is strictly after the
activity cutoff and whose name is not a current queue job name. -/
def get_recent (dt : DT) (root : List FSEntry) (creation_cutoff activity_cutoff : Int)
    (queue : List QJob) : List ExpRecord :=
  let experiment_paths :=
    root.filter (fun e => e.is_dir && decide (creation_cutoff ≤ e.st_ctime))
  let experiments := experiment_paths.map (fun e => (e.name, get_last_activity_time e))
  let queue_job_names := queue.map (fun j => j.job_name)
  (experiments.filter
      (fun p => decide (activity_cutoff < p.2) && !(queue_job_names.contains p.1))).map
    (fun p => { experiment_name := p.1, time_activity := dt.isofmt p.2 })

/-! ## SwiftBar aggregator (swiftbar.py) -/

/-- A server entry of the configuration: the ssh host and the optional
virtualenv path. -/
structure SrvCfg where
  host : String
  venv : Option String
deriving DecidableEq, Repr

/-- Result of one remote command invocation: captured stdout on success,
or the CalledProcessError text and captured stderr on non-zero exit. -/
inductive RunResult where
  | ok (stdout : String)
  | err (msg : String) (stderr : String)
deriving DecidableEq, Repr

/-- A dashboard payload as held by swiftbar.py: the queue, the recent
experiments, and the optional error/output diagnostics. -/
structure Dashboard where
  queue : List QJob
  recent : List ExpRecord
  error : Option String
  output : Option String
deriving DecidableEq, Repr

/-- The remote python interpreter chosen by get_dashboard: the venv
interpreter when a venv is configured, plain python otherwise. -/
def remotePython (cfg : SrvCfg) : String :=
  match cfg.venv with
  | some v => v ++ "/bin/python"
  | none => "python"

/-- The json.loads step of get_dashboard: a decoded payload is returned
verbatim, a JSONDecodeError is converted into the error payload. -/
def afterDecode : Except String Dashboard → Dashboard
  | .ok d => d
  | .error e =>
    { queue := [], recent := [], error := some ("Failed to parse JSON: " ++ e),
      output := none }

/-- The except-CalledProcessError step of get_dashboard: a non-zero exit
becomes the error payload carrying the captured stderr. -/
def afterRun (decode : String → Except String Dashboard) : RunResult → Dashboard
  | .ok out => afterDecode (decode out)
  | .err msg stderr =>
    { queue := [], recent := [], error := some ("Command failed: " ++ msg),
      output := some stderr }

/-- get_dashboard from swiftbar.py: run the remote dashboard command and
decode its JSON output; a non-zero exit or an undecodable payload is
converted into an error-bearing payload with an empty queue.  The
transport (subprocess.run over ssh) and the JSON decoder are external
collaborators passed as functions. -/
def get_dashboard (transport : List String → RunResult)
    (decode : String → Except String Dashboard) (cfg : SrvCfg) : Dashboard :=
  afterRun decode (transport ["ssh", cfg.host, remotePython cfg, "rc/dashboard.py"])

/-- get_dashboards from swiftbar.py: one get_dashboard call per
configured server, keyed by the configuration key, in configuration
order. -/
def get_dashboards (transport : List String → RunResult)
    (decode : String → Except String Dashboard)
    (servers : List (String × SrvCfg)) : List (String × Dashboard) :=
  servers.map (fun p => (p.1, get_dashboard transport decode p.2))

/-- Whether a decode result is a failure. -/
def hostFailedDecode : Except String Dashboard → Bool
  | .error _ => true
  | .ok _ => false

/-- Whether a run result is a failure, given the decoder. -/
def hostFailedRun (decode : String → Except String Dashboard) : RunResult → Bool
  | .err _ _ => true
  | .ok out => hostFailedDecode (decode out)

/-- Whether the remote retrieval for a server fails: non-zero exit of
the transport, or a successful run whose payload the decoder rejects. -/
def hostFailed (transport : List String → RunResult)
    (decode : String → Except String Dashboard) (cfg : SrvCfg) : Bool :=
  hostFailedRun decode (transport ["ssh", cfg.host, remotePython cfg, "rc/dashboard.py"])

/-! ## Display formatting (swiftbar.py format_job_label) -/

/-- One step of the model of re.sub applied to the anchored pattern of a
dot followed by digits running to the end of the string; the leftmost
position where the pattern matches has everything from the dot on
removed. -/
def stripSubsecondsAux : List Char → List Char
  | [] => []
  | c :: cs =>
    if c = '.' ∧ cs ≠ [] ∧ cs.all Char.isDigit then []
    else c :: stripSubsecondsAux cs

/-- Model of re.sub removing a trailing dot-and-digits suffix, as
format_job_label applies to time_pending. -/
def stripSubseconds (s : String) : String := ⟨stripSubsecondsAux s.data⟩

/-- format_job_label from swiftbar.py.  For a PENDING job whose
time_pending is null, re.sub receives None and Python raises TypeError;
this is modelled as the error case. -/
def format_job_label (job : QJob) : Except String String :=
  if job.status = "RUNNING" then
    .ok (":rocket: " ++ job.job_name ++ " (" ++ job.time_left ++ ")")
  else if job.status = "PENDING" then
    match job.time_pending with
    | some tp =>
      .ok (":hourglass_flowing_sand: " ++ job.job_name ++ " (:clock2: " ++
        stripSubseconds tp ++ ")")
    | none => .error "TypeError: expected string or bytes-like object, got NoneType"
  else
    .ok (":warning: " ++ job.job_name ++ " (:bangbang:)")

/-! ## Helper lemmas on the decimal and timedelta formatters -/

lemma decDigit_isDigit (n : Nat) (h : n < 10) : (decDigit n).isDigit = true := by
  interval_cases n <;> decide

lemma decCharsAux_isDigit (fuel : Nat) :
    ∀ n c, c ∈ decCharsAux fuel n → c.isDigit = true := by
  induction fuel with
  | zero => intro n c hc; simp [decCharsAux] at hc
  | succ fuel ih =>
    intro n c hc
    by_cases h : n < 10
    · simp [decCharsAux, h] at hc
      subst hc
      exact decDigit_isDigit n h
    · simp [decCharsAux, h] at hc
      rcases hc with hc | hc
      · exact ih _ c hc
      · subst hc
        exact decDigit_isDigit _ (Nat.mod_lt _ (by decide))

lemma decChars_isDigit (n : Nat) : ∀ c ∈ decChars n, c.isDigit = true :=
  fun c hc => decCharsAux_isDigit (n + 1) n c hc

lemma decChars_ne_nil (n : Nat) : decChars n ≠ [] := by
  unfold decChars decCharsAux
  by_cases h : n < 10 <;> simp [h]

lemma isDigit_ne_dot {c : Char} (h : c.isDigit = true) : c ≠ '.' := by
  intro hc
  subst hc
  exact absurd h (by decide)

lemma pad2_no_dot (n : Nat) : ∀ c ∈ pad2 n, c ≠ '.' := by
  intro c hc
  unfold pad2 at hc
  by_cases h : n < 10 <;> simp [h] at hc
  · rcases hc with hc | hc
    · subst hc; decide
    · exact isDigit_ne_dot (decChars_isDigit n c hc)
  · exact isDigit_ne_dot (decChars_isDigit n c hc)

lemma intChars_no_dot (i : Int) : ∀ c ∈ intChars i, c ≠ '.' := by
  intro c hc
  unfold intChars at hc
  by_cases h : i < 0 <;> simp [h] at hc
  · rcases hc with hc | hc
    · subst hc; decide
    · exact isDigit_ne_dot (decChars_isDigit _ c hc)
  · exact isDigit_ne_dot (decChars_isDigit _ c hc)

lemma no_dot_append {l₁ l₂ : List Char} (h₁ : ∀ c ∈ l₁, c ≠ '.')
    (h₂ : ∀ c ∈ l₂, c ≠ '.') : ∀ c ∈ l₁ ++ l₂, c ≠ '.' := by
  intro c hc
  rcases List.mem_append.mp hc with h | h
  · exact h₁ c h
  · exact h₂ c h

lemma no_dot_cons {c₀ : Char} {l : List Char} (h₀ : c₀ ≠ '.')
    (h : ∀ c ∈ l, c ≠ '.') : ∀ c ∈ c₀ :: l, c ≠ '.' := by
  intro c hc
  rcases List.mem_cons.mp hc with h1 | h1
  · subst h1; exact h₀
  · exact h c h1

lemma no_dot_nil : ∀ c ∈ ([] : List Char), c ≠ '.' := by
  intro c hc
  cases hc

lemma fmtWholeChars_no_dot (usec : Int) : ∀ c ∈ fmtWholeChars usec, c ≠ '.' := by
  unfold fmtWholeChars
  have hcore : ∀ c ∈ decChars (tdRem usec / 1000000 / 60 / 60) ++
      ':' :: pad2 (tdRem usec / 1000000 / 60 % 60) ++
      ':' :: pad2 (tdRem usec / 1000000 % 60), c ≠ '.' := by
    refine no_dot_append (no_dot_append ?_ ?_) ?_
    · exact fun c hc => isDigit_ne_dot (decChars_isDigit _ c hc)
    · exact no_dot_cons (by decide) (pad2_no_dot _)
    · exact no_dot_cons (by decide) (pad2_no_dot _)
  by_cases h : tdDays usec = 0 <;> simp only [h, if_true, if_false, reduceIte]
  · exact hcore
  · refine no_dot_append (no_dot_append (no_dot_append (no_dot_append ?_ ?_) ?_) ?_) hcore
    · exact intChars_no_dot _
    · exact no_dot_cons (by decide) (no_dot_cons (by decide)
        (no_dot_cons (by decide) (no_dot_cons (by decide) no_dot_nil)))
    · by_cases h1 : (tdDays usec).natAbs = 1 <;> simp only [h1, if_true, if_false, reduceIte]
      · exact no_dot_nil
      · exact no_dot_cons (by decide) no_dot_nil
    · exact no_dot_cons (by decide) (no_dot_cons (by decide) no_dot_nil)

lemma pad6_all_digit (n : Nat) : ∀ c ∈ pad6 n, c.isDigit = true := by
  intro c hc
  unfold pad6 at hc
  simp at hc
  rcases hc with ⟨_, hc⟩ | hc
  · subst hc; decide
  · exact decChars_isDigit n c hc

lemma pad6_ne_nil (n : Nat) : pad6 n ≠ [] := by
  unfold pad6
  intro h
  rcases List.append_eq_nil.mp h with ⟨_, h2⟩
  exact decChars_ne_nil n h2

lemma stripSubsecondsAux_cons_ne (c : Char) (cs : List Char) (hc : c ≠ '.') :
    stripSubsecondsAux (c :: cs) = c :: stripSubsecondsAux cs := by
  unfold stripSubsecondsAux
  rw [if_neg (fun hand => hc hand.1)]
  cases cs <;> rfl

lemma stripSubsecondsAux_cons_dot (s : List Char) (hs : s ≠ [])
    (hd : s.all Char.isDigit = true) : stripSubsecondsAux ('.' :: s) = [] := by
  unfold stripSubsecondsAux
  rw [if_pos ⟨rfl, hs, hd⟩]

lemma stripSubsecondsAux_no_dot (l : List Char) (h : ∀ c ∈ l, c ≠ '.') :
    stripSubsecondsAux l = l := by
  induction l with
  | nil => rfl
  | cons c cs ih =>
    rw [stripSubsecondsAux_cons_ne c cs (h c (List.mem_cons_self _ _))]
    rw [ih (fun d hd => h d (List.mem_cons_of_mem _ hd))]

lemma stripSubsecondsAux_append_dot (w s : List Char) (hw : ∀ c ∈ w, c ≠ '.')
    (hs : s ≠ []) (hd : s.all Char.isDigit = true) :
    stripSubsecondsAux (w ++ '.' :: s) = w := by
  induction w with
  | nil =>
    rw [List.nil_append]
    exact stripSubsecondsAux_cons_dot s hs hd
  | cons c cs ih =>
    rw [List.cons_append]
    rw [stripSubsecondsAux_cons_ne c _ (hw c (List.mem_cons_self _ _))]
    exact congrArg (c :: ·) (ih (fun d hd2 => hw d (List.mem_cons_of_mem _ hd2)))

/-- The display-layer regex substitution recovers exactly the
whole-second form of str(timedelta). -/
lemma stripSubseconds_fmtTimedelta (usec : Int) :
    stripSubseconds (fmtTimedelta usec) = fmtTimedeltaWhole usec := by
  unfold stripSubseconds fmtTimedelta fmtTimedeltaWhole fmtTimedeltaChars
  by_cases h : tdMicro usec = 0 <;> simp [h]
  · exact congrArg String.mk (stripSubsecondsAux_no_dot _ (fmtWholeChars_no_dot usec))
  · refine congrArg String.mk ?_
    refine stripSubsecondsAux_append_dot _ _ (fmtWholeChars_no_dot usec) (pad6_ne_nil _) ?_
    rw [List.all_eq_true]
    exact fun c hc => pad6_all_digit _ c hc

/-! ## Helper lemmas on foldl max (the Python max over a list) -/

lemma foldl_max_mem (a : Int) (l : List Int) :
    l.foldl max a = a ∨ l.foldl max a ∈ l := by
  induction l generalizing a with
  | nil => left; rfl
  | cons b l ih =>
    rcases ih (max a b) with h | h
    · rcases max_choice a b with hm | hm
      · left; rw [List.foldl_cons, h, hm]
      · right; rw [List.foldl_cons, h, hm]; exact List.mem_cons_self _ _
    · right; rw [List.foldl_cons]; exact List.mem_cons_of_mem _ h

lemma le_foldl_max_init (a : Int) (l : List Int) : a ≤ l.foldl max a := by
  induction l generalizing a with
  | nil => exact le_refl a
  | cons b l ih => exact le_trans (le_max_left a b) (ih (max a b))

lemma le_foldl_max_of_mem (a x : Int) (l : List Int) (hx : x ∈ l) :
    x ≤ l.foldl max a := by
  induction l generalizing a with
  | nil => cases hx
  | cons b l ih =>
    rcases List.mem_cons.mp hx with h | h
    · subst h
      exact le_trans (le_max_right a x) (le_foldl_max_init _ l)
    · exact ih _ h

/-! ## Helper lemmas on the queue parser -/

lemma string_append_ne_empty (s t : String) (h : s.data ≠ []) : s ++ t ≠ "" := by
  intro hc
  cases s with | mk a =>
  cases t with | mk b =>
  exact h (List.append_eq_nil.mp (String.ext_iff.mp hc)).1

lemma parseLine_blank (dt : DT) (now : Int) (l : List Char) (h : pyStrip l = []) :
    parseLine dt now l = .ok none := by
  unfold parseLine
  rw [if_pos h]

lemma parseLine_not4 (dt : DT) (now : Int) (l : List Char)
    (h : (splitOnChar '\t' l).length ≠ 4) : parseLine dt now l = .ok none := by
  by_cases hb : pyStrip l = []
  · exact parseLine_blank dt now l hb
  · unfold parseLine
    rw [if_neg hb]
    rcases h4 : splitOnChar '\t' l with _ | ⟨a, _ | ⟨b, _ | ⟨c, _ | ⟨d, _ | ⟨e, rest⟩⟩⟩⟩⟩
    · rfl
    · rfl
    · rfl
    · rfl
    · exact absurd (by rw [h4]; rfl) h
    · rfl

lemma parseLine_four (dt : DT) (now : Int) (l : List Char) (a b c d : List Char)
    (hb : pyStrip l ≠ []) (h4 : splitOnChar '\t' l = [a, b, c, d]) :
    parseLine dt now l =
      match dt.fromiso ⟨d⟩ with
      | none => .error ("Invalid isoformat string: " ++ (⟨d⟩ : String))
      | some ts =>
        .ok (some
          { job_name := ⟨a⟩
            status := ⟨b⟩
            time_left := ⟨c⟩
            time_started := dt.isofmt ts
            time_pending :=
              (match (if (⟨b⟩ : String) = "PENDING" then some (now - ts) else none : Option Int) with
               | some dur => if dur ≠ 0 then some (fmtTimedelta dur) else none
               | none => none) }) := by
  unfold parseLine
  rw [if_neg hb, h4]

/-- The time_pending expression built by parse_queue, in closed form. -/
lemma pending_field_eq (b : List Char) (dur : Int) :
    (match (if (⟨b⟩ : String) = "PENDING" then some dur else none : Option Int) with
      | some dur => if dur ≠ 0 then some (fmtTimedelta dur) else none
      | none => none) =
    if (⟨b⟩ : String) = "PENDING" ∧ dur ≠ 0 then some (fmtTimedelta dur) else none := by
  by_cases hp : (⟨b⟩ : String) = "PENDING" <;> by_cases hz : dur = 0 <;>
    simp [hp, hz]

/-- Unfolding equation for the parser loop on a non-empty line list. -/
lemma parseDataLines_cons (dt : DT) (now : Int) (l : List Char)
    (ls : List (List Char)) :
    parseDataLines dt now (l :: ls) =
      match parseLine dt now l with
      | .error e => .error e
      | .ok j =>
        match parseDataLines dt now ls with
        | .error e => .error e
        | .ok rest =>
          match j with
          | some job => .ok (job :: rest)
          | none => .ok rest := rfl

/-- Every record in a successful parse comes from some data line. -/
lemma parseDataLines_mem (dt : DT) (now : Int) (ls : List (List Char))
    (jobs : List QJob) (hok : parseDataLines dt now ls = .ok jobs) (j : QJob)
    (hj : j ∈ jobs) : ∃ l ∈ ls, parseLine dt now l = .ok (some j) := by
  induction ls generalizing jobs with
  | nil =>
    have : ([] : List QJob) = jobs := by
      have := hok
      unfold parseDataLines at this
      cases this
      rfl
    subst this
    cases hj
  | cons l ls ih =>
    rw [parseDataLines_cons] at hok
    rcases hcase : parseLine dt now l with e | oj
    · rw [hcase] at hok
      cases hok
    rw [hcase] at hok
    rcases hrest : parseDataLines dt now ls with e | rest
    · rw [hrest] at hok
      cases hok
    rw [hrest] at hok
    cases oj with
    | none =>
      have hjobs : rest = jobs := by cases hok; rfl
      subst hjobs
      obtain ⟨l2, hl2, hpl⟩ := ih rest hrest hj
      exact ⟨l2, List.mem_cons_of_mem _ hl2, hpl⟩
    | some job =>
      have hjobs : job :: rest = jobs := by cases hok; rfl
      subst hjobs
      rcases List.mem_cons.mp hj with h | h
      · subst h
        exact ⟨l, List.mem_cons_self _ _, hcase⟩
      · obtain ⟨l2, hl2, hpl⟩ := ih rest hrest h
        exact ⟨l2, List.mem_cons_of_mem _ hl2, hpl⟩

/-- Shape of any record produced from one line: the time_pending field
is present exactly for PENDING jobs with a truthy elapsed duration, and
then holds the str(timedelta) of now minus the start time. -/
lemma parseLine_some_shape (dt : DT) (now : Int) (l : List Char) (j : QJob)
    (h : parseLine dt now l = .ok (some j)) :
    ∃ ts : Int, j.time_started = dt.isofmt ts ∧
      j.time_pending =
        (if j.status = "PENDING" ∧ now - ts ≠ 0 then some (fmtTimedelta (now - ts)) else none) := by
  by_cases hb : pyStrip l = []
  · rw [parseLine_blank dt now l hb] at h
    cases h
  rcases h4 : splitOnChar '\t' l with _ | ⟨a, _ | ⟨b, _ | ⟨c, _ | ⟨d, _ | ⟨e, rest⟩⟩⟩⟩⟩
  · rw [parseLine_not4 dt now l (by rw [h4]; decide)] at h; cases h
  · rw [parseLine_not4 dt now l (by rw [h4]; simp)] at h; cases h
  · rw [parseLine_not4 dt now l (by rw [h4]; simp)] at h; cases h
  · rw [parseLine_not4 dt now l (by rw [h4]; simp)] at h; cases h
  · rw [parseLine_four dt now l a b c d hb h4] at h
    rcases hiso : dt.fromiso ⟨d⟩ with _ | ts
    · rw [hiso] at h; cases h
    · rw [hiso] at h
      have hj : j =
          { job_name := ⟨a⟩
            status := ⟨b⟩
            time_left := ⟨c⟩
            time_started := dt.isofmt ts
            time_pending :=
              (match (if (⟨b⟩ : String) = "PENDING" then some (now - ts) else none : Option Int) with
               | some dur => if dur ≠ 0 then some (fmtTimedelta dur) else none
               | none => none) } := by
        cases h
        rfl
      refine ⟨ts, ?_, ?_⟩
      · rw [hj]
      · rw [hj, pending_field_eq]
  · rw [parseLine_not4 dt now l ?_] at h
    · cases h
    · rw [h4]
      intro hlen
      simp only [List.length_cons] at hlen
      omega

/-! ## Helper lemmas on the recency filter and the aggregator -/

/-- Membership characterisation of get_recent: a record is emitted
exactly for a root entry that is a directory, created at or after the
creation cutoff, with activity strictly after the activity cutoff, and
whose name is not a queue job name. -/
lemma mem_get_recent (dt : DT) (root : List FSEntry) (cc ac : Int)
    (q : List QJob) (r : ExpRecord) :
    r ∈ get_recent dt root cc ac q ↔
      ∃ e ∈ root, e.is_dir = true ∧ cc ≤ e.st_ctime ∧
        ac < get_last_activity_time e ∧
        (q.map (fun j => j.job_name)).contains e.name = false ∧
        r = { experiment_name := e.name,
              time_activity := dt.isofmt (get_last_activity_time e) } := by
  unfold get_recent
  simp only [List.mem_map, List.mem_filter, Bool.and_eq_true, decide_eq_true_eq,
    Bool.not_eq_true']
  constructor
  · rintro ⟨a, ⟨⟨e, ⟨he, hdir, hcc⟩, hpair⟩, hact, hq⟩, hr⟩
    subst hpair
    subst hr
    exact ⟨e, he, hdir, hcc, hact, hq, rfl⟩
  · rintro ⟨e, he, hdir, hcc, hact, hq, hr⟩
    exact ⟨(e.name, get_last_activity_time e), ⟨⟨e, ⟨he, hdir, hcc⟩, rfl⟩, hact, hq⟩, hr.symm⟩

lemma length_four_eq {A : Type} (xs : List A) (h : xs.length = 4) :
    ∃ a b c d, xs = [a, b, c, d] := by
  rcases xs with _ | ⟨a, _ | ⟨b, _ | ⟨c, _ | ⟨d, _ | ⟨e, r⟩⟩⟩⟩⟩
  · cases h
  · cases h
  · cases h
  · cases h
  · exact ⟨a, b, c, d, rfl⟩
  · simp only [List.length_cons] at h
    omega

/-- A well-formed line (non-blank, four fields, parseable timestamp)
always yields a record. -/
lemma parseLine_ok_of_wf (dt : DT) (now : Int) (l : List Char)
    (hb : pyStrip l ≠ []) (hlen : (splitOnChar '\t' l).length = 4)
    (hiso : (dt.fromiso ⟨(splitOnChar '\t' l).getD 3 []⟩).isSome = true) :
    ∃ j, parseLine dt now l = .ok (some j) := by
  obtain ⟨a, b, c, d, h4⟩ := length_four_eq _ hlen
  rw [h4] at hiso
  obtain ⟨ts, hts⟩ := Option.isSome_iff_exists.mp hiso
  have hts2 : dt.fromiso ⟨d⟩ = some ts := hts
  refine ⟨{ job_name := ⟨a⟩
            status := ⟨b⟩
            time_left := ⟨c⟩
            time_started := dt.isofmt ts
            time_pending :=
              (match (if (⟨b⟩ : String) = "PENDING" then some (now - ts) else none : Option Int) with
               | some dur => if dur ≠ 0 then some (fmtTimedelta dur) else none
               | none => none) }, ?_⟩
  rw [parseLine_four dt now l a b c d hb h4, hts2]

/-- Under the well-formedness hypothesis, the parse succeeds and
produces exactly one record per non-blank data line. -/
lemma parseDataLines_length (dt : DT) (now : Int) (ls : List (List Char))
    (h : ∀ l ∈ ls, pyStrip l ≠ [] → (splitOnChar '\t' l).length = 4 ∧
      (dt.fromiso ⟨(splitOnChar '\t' l).getD 3 []⟩).isSome = true) :
    exceptIsOk (parseDataLines dt now ls) = true ∧
    exceptLen (parseDataLines dt now ls) =
      (ls.filter (fun l => !(pyStrip l).isEmpty)).length := by
  induction ls with
  | nil => exact ⟨rfl, rfl⟩
  | cons l ls ih =>
    have hls := ih (fun l2 hl2 => h l2 (List.mem_cons_of_mem _ hl2))
    rcases hrec : parseDataLines dt now ls with e | rest
    · rw [hrec] at hls
      cases hls.1
    rw [hrec] at hls
    have hlen : rest.length = (ls.filter (fun l => !(pyStrip l).isEmpty)).length := hls.2
    by_cases hb : pyStrip l = []
    · rw [parseDataLines_cons, parseLine_blank dt now l hb, hrec]
      have hfilter : (l :: ls).filter (fun l => !(pyStrip l).isEmpty) =
          ls.filter (fun l => !(pyStrip l).isEmpty) := by
        rw [List.filter_cons]
        rw [if_neg (by rw [hb]; decide)]
      rw [hfilter]
      exact ⟨rfl, hlen⟩
    · obtain ⟨j, hj⟩ := parseLine_ok_of_wf dt now l hb
        (h l (List.mem_cons_self _ _) hb).1 (h l (List.mem_cons_self _ _) hb).2
      rw [parseDataLines_cons, hj, hrec]
      have hfilter : (l :: ls).filter (fun l => !(pyStrip l).isEmpty) =
          l :: ls.filter (fun l => !(pyStrip l).isEmpty) := by
        rw [List.filter_cons]
        rw [if_pos (by simp [List.isEmpty_iff, hb])]
      rw [hfilter]
      refine ⟨rfl, ?_⟩
      simp only [exceptLen, List.length_cons, hlen]

/-- A line whose field count is not four is dropped without affecting
the rest of the parse. -/
lemma parseDataLines_skip (dt : DT) (now : Int) (l₁ l₂ : List (List Char))
    (bad : List Char) (hbad : (splitOnChar '\t' bad).length ≠ 4) :
    parseDataLines dt now (l₁ ++ bad :: l₂) = parseDataLines dt now (l₁ ++ l₂) := by
  induction l₁ with
  | nil =>
    rw [List.nil_append, List.nil_append, parseDataLines_cons,
      parseLine_not4 dt now bad hbad]
    rcases hrec : parseDataLines dt now l₂ with e | rest <;> rfl
  | cons hd l₁ ih =>
    rw [List.cons_append, List.cons_append, parseDataLines_cons, parseDataLines_cons, ih]

/-- A non-blank four-field line whose timestamp the datetime library
rejects makes the whole parse fail. -/
lemma parseDataLines_fatal (dt : DT) (now : Int) (ls : List (List Char))
    (l : List Char) (hmem : l ∈ ls) (hb : pyStrip l ≠ [])
    (hlen : (splitOnChar '\t' l).length = 4)
    (hiso : dt.fromiso ⟨(splitOnChar '\t' l).getD 3 []⟩ = none) :
    exceptIsOk (parseDataLines dt now ls) = false := by
  induction ls with
  | nil => cases hmem
  | cons hd tl ih =>
    rcases List.mem_cons.mp hmem with hcase | hcase
    · subst hcase
      obtain ⟨a, b, c, d, h4⟩ := length_four_eq _ hlen
      rw [h4] at hiso
      have hiso2 : dt.fromiso ⟨d⟩ = none := hiso
      rw [parseDataLines_cons, parseLine_four dt now l a b c d hb h4, hiso2]
      rfl
    · rw [parseDataLines_cons]
      rcases hpl : parseLine dt now hd with e | j
      · rfl
      · rcases hrec : parseDataLines dt now tl with e | rest
        · cases j <;> rfl
        · have := ih hcase
          rw [hrec] at this
          cases this

/-- A line whose status field is not PENDING is parsed the same way at
any two clock readings. -/
lemma parseLine_now_indep (dt : DT) (now₁ now₂ : Int) (l : List Char)
    (h : (splitOnChar '\t' l).getD 1 [] ≠ "PENDING".data) :
    parseLine dt now₁ l = parseLine dt now₂ l := by
  by_cases hb : pyStrip l = []
  · rw [parseLine_blank dt now₁ l hb, parseLine_blank dt now₂ l hb]
  by_cases hlen : (splitOnChar '\t' l).length = 4
  · obtain ⟨a, b, c, d, h4⟩ := length_four_eq _ hlen
    rw [h4] at h
    have hbp : b ≠ "PENDING".data := h
    rw [parseLine_four dt now₁ l a b c d hb h4, parseLine_four dt now₂ l a b c d hb h4]
    rcases dt.fromiso ⟨d⟩ with _ | ts
    · rfl
    · have hcond : ¬ ((⟨b⟩ : String) = "PENDING") :=
        fun hc => hbp (String.ext_iff.mp hc)
      simp only [if_neg hcond]
  · rw [parseLine_not4 dt now₁ l hlen, parseLine_not4 dt now₂ l hlen]

/-- The whole parse is clock-independent when no data line carries a
PENDING status in its second field. -/
lemma parseDataLines_now_indep (dt : DT) (now₁ now₂ : Int)
    (ls : List (List Char))
    (h : ∀ l ∈ ls, (splitOnChar '\t' l).getD 1 [] ≠ "PENDING".data) :
    parseDataLines dt now₁ ls = parseDataLines dt now₂ ls := by
  induction ls with
  | nil => rfl
  | cons l ls ih =>
    rw [parseDataLines_cons, parseDataLines_cons,
      parseLine_now_indep dt now₁ now₂ l (h l (List.mem_cons_self _ _)),
      ih (fun l2 hl2 => h l2 (List.mem_cons_of_mem _ hl2))]

example : fmtTimedelta 3600000000 = "1:00:00" := by decide

example : fmtTimedelta 500000 = "0:00:00.500000" := by decide

example : fmtTimedelta (-1) = "-1 day, 23:59:59.999999" := by decide

/-! ## Test fixtures for concrete evaluations -/

/-- Raw squeue text of the 3-field scenario named in the specification. -/
def c1raw3 : String := "NAME\tSTATE\tTIME\nfoo\tRUNNING\t1:00:00\nbar\tPENDING\t-\n"

/-- The same scenario extended with the 4th (start-time) field. -/
def c1raw4 : String :=
  "NAME\tSTATE\tTIME\tSTART\nfoo\tRUNNING\t1:00:00\t2024-01-01T00:00:00\nbar\tPENDING\t-\t2024-01-01T00:00:00\n"

/-- One PENDING data line, for observing the clock dependence. -/
def c3raw : String := "NAME\tSTATE\tTIME\tSTART\nfoo\tPENDING\t-\t2024-01-01T00:00:00\n"

/-- One RUNNING data line, clock-independent. -/
def c3rawR : String := "NAME\tSTATE\tTIME\tSTART\nfoo\tRUNNING\t1:00:00\t2024-01-01T00:00:00\n"

/-- A PENDING and a RUNNING line, for the time_pending claims. -/
def c5raw : String :=
  "NAME\tSTATE\tTIME\tSTART\nfoo\tPENDING\t-\t2024-01-01T00:00:00\nbar\tRUNNING\t1:00\t2024-01-01T00:00:00\n"

/-- The record parsed from the PENDING line of c5raw at now = 500000. -/
def c5jobFoo : QJob :=
  { job_name := "foo"
    status := "PENDING"
    time_left := "-"
    time_started := "2024-01-01T00:00:00"
    time_pending := some "0:00:00.500000" }

/-- The record parsed from the RUNNING line of c5raw. -/
def c5jobBar : QJob :=
  { job_name := "bar"
    status := "RUNNING"
    time_left := "1:00"
    time_started := "2024-01-01T00:00:00"
    time_pending := none }

/-- A 4-field line whose timestamp field is not valid ISO text. -/
def c6raw : String := "NAME\tSTATE\tTIME\tSTART\nfoo\tPENDING\t1:00\tgarbage\n"

/-- Two well-formed lines around a 2-field line. -/
def c7raw : String :=
  "NAME\tSTATE\tTIME\tSTART\nfoo\tRUNNING\t1:00:00\t2024-01-01T00:00:00\nonlytwo\tfields\nbar\tPENDING\t-\t2024-01-01T00:00:00\n"

/-- The record parsed at zero elapsed pending time. -/
def c10job : QJob :=
  { job_name := "foo"
    status := "PENDING"
    time_left := "1:00"
    time_started := "2024-01-01T00:00:00"
    time_pending := none }

/-- An experiment directory whose activity time equals the cutoff used
in the C2 counterexample. -/
def e2fs : FSEntry :=
  { name := "exp1", is_dir := true, st_ctime := 100, st_mtime := 50, outputTxtMtimes := [] }

/-- An experiment directory with output artifacts. -/
def e8a : FSEntry :=
  { name := "expA", is_dir := true, st_ctime := 0, st_mtime := 1, outputTxtMtimes := [3, 9, 4] }

/-- An experiment directory without output artifacts. -/
def e8b : FSEntry :=
  { name := "expB", is_dir := true, st_ctime := 0, st_mtime := 7, outputTxtMtimes := [] }

/-- An experiment directory not matching any queue job. -/
def e9a : FSEntry :=
  { name := "exp-free", is_dir := true, st_ctime := 10, st_mtime := 20, outputTxtMtimes := [] }

/-- An experiment directory whose name matches a queued job. -/
def e9b : FSEntry :=
  { name := "exp-queued", is_dir := true, st_ctime := 10, st_mtime := 20, outputTxtMtimes := [] }

/-- A queue containing the job that shadows e9b. -/
def q9 : List QJob :=
  [{ job_name := "exp-queued"
     status := "RUNNING"
     time_left := "1:00"
     time_started := "2024-01-01T00:00:00"
     time_pending := none }]

/-- Server configurations for the aggregator witnesses. -/
def cfgA : SrvCfg := { host := "a.example", venv := none }

/-- A server whose retrieval fails in the aggregator witnesses. -/
def cfgB : SrvCfg := { host := "b.example", venv := some "/opt/venv" }

/-- A transport double: ssh to b.example exits non-zero, others return
an empty JSON object. -/
def ttransport : List String → RunResult := fun cmd =>
  if cmd.getD 1 "" = "b.example" then
    .err "Command returned non-zero exit status 255." "ssh: connection refused"
  else
    .ok "{}"

/-- A decoder double accepting only the empty JSON object. -/
def tdecode : String → Except String Dashboard := fun s =>
  if s = "{}" then .ok { queue := [], recent := [], error := none, output := none }
  else .error "Expecting value: line 1 column 1 (char 0)"

/-! ## Claims -/

/-- Claim C1, counterexample.  The claim asserts that the raw text
"NAME\tSTATE\tTIME\nfoo\tRUNNING\t1:00:00\nbar\tPENDING\t-\n" parses
into two records and that, in general, well-formed 3-field inputs yield
one record per non-blank data line.  The code only accepts lines with
exactly four tab-separated fields, so this input has two non-blank
well-formed 3-field data lines yet parses to the empty record list. -/
theorem C1_counterexample :
    parse_queue dt1 0 c1raw3 = .ok [] ∧
    ((dataLines c1raw3).filter (fun l => !(pyStrip l).isEmpty)).length = 2 := by
  decide

/-- Claim C1, amended: the parser accepts 4-field data lines (job name,
status, time left, start timestamp), not 3-field ones.  For every input
whose non-blank data lines are well-formed 4-field tab-separated lines
with a parseable timestamp, the parse succeeds and its output length
equals the number of non-blank data lines; the 3-field scenario input
itself yields zero records. -/
theorem C1_queue_parser_length (dt : DT) (now : Int) (output : String)
    (h : ∀ l ∈ dataLines output, pyStrip l ≠ [] →
      (splitOnChar '\t' l).length = 4 ∧
      (dt.fromiso ⟨(splitOnChar '\t' l).getD 3 []⟩).isSome = true) :
    exceptIsOk (parse_queue dt now output) = true ∧
    exceptLen (parse_queue dt now output) =
      ((dataLines output).filter (fun l => !(pyStrip l).isEmpty)).length := by
  unfold parse_queue
  exact parseDataLines_length dt now (dataLines output) h

/-- Witness for C1: the 4-field version of the scenario parses into one
record per non-blank data line. -/
theorem C1_queue_parser_length_witness :
    exceptIsOk (parse_queue dt1 3600000000 c1raw4) = true ∧
    exceptLen (parse_queue dt1 3600000000 c1raw4) =
      ((dataLines c1raw4).filter (fun l => !(pyStrip l).isEmpty)).length :=
  C1_queue_parser_length dt1 3600000000 c1raw4 (by decide)

/-- Claim C2, counterexample.  The claim asserts that an experiment
whose activity time equals the activity cutoff exactly is included.
The code filters with a strict comparison, so a directory created at
the creation cutoff, absent from the queue, and with activity time
exactly equal to the activity cutoff produces no record. -/
theorem C2_counterexample :
    get_last_activity_time e2fs = 50 ∧ e2fs.st_ctime ≥ 100 ∧
    get_recent dt1 [e2fs] 100 50 [] = [] := by
  decide

/-- Claim C2, amended: for a top-level directory created at or after
the creation cutoff and whose name is not a queue job name, a record is
emitted exactly when its activity time is STRICTLY after the activity
cutoff; equality with the cutoff excludes the experiment.  (The
creation comparison is non-strict, the activity one strict.) -/
theorem C2_recent_strict (dt : DT) (root : List FSEntry) (cc ac : Int)
    (q : List QJob) (r : ExpRecord) :
    r ∈ get_recent dt root cc ac q ↔
      ∃ e ∈ root, e.is_dir = true ∧ cc ≤ e.st_ctime ∧
        ac < get_last_activity_time e ∧
        (q.map (fun j => j.job_name)).contains e.name = false ∧
        r = { experiment_name := e.name,
              time_activity := dt.isofmt (get_last_activity_time e) } :=
  mem_get_recent dt root cc ac q r

/-- Claim C3, counterexample.  The claim asserts that parsing the same
raw text twice yields identical output.  parse_queue reads the current
clock, and the time_pending field of a PENDING job depends on it, so
the same text parsed at two different instants yields different
records. -/
theorem C3_counterexample :
    parse_queue dt1 1000000 c3raw ≠ parse_queue dt1 2000000 c3raw := by
  decide

/-- Claim C3, amended: parse_queue is a pure function of the raw text
and of the clock reading; re-parsing the same text yields identical
output whenever no data line has status PENDING in its second field
(only the PENDING branch reads the clock).  With a PENDING line, two
runs at different instants differ, as the counterexample shows. -/
theorem C3_parse_clock_independent (dt : DT) (now₁ now₂ : Int) (output : String)
    (h : ∀ l ∈ dataLines output, (splitOnChar '\t' l).getD 1 [] ≠ "PENDING".data) :
    parse_queue dt now₁ output = parse_queue dt now₂ output := by
  unfold parse_queue
  exact parseDataLines_now_indep dt now₁ now₂ (dataLines output) h

/-- Witness for C3: a RUNNING-only queue parses identically at two
different clock readings. -/
theorem C3_parse_clock_independent_witness :
    parse_queue dt1 5 c3rawR = parse_queue dt1 7 c3rawR :=
  C3_parse_clock_independent dt1 5 7 c3rawR (by decide)

/-- Claim C4: per-host failure isolation in the aggregator.  For a
configuration of N hosts where host K's retrieval fails (non-zero exit
or undecodable payload), the result still has one entry per host, host
K's entry has an empty queue and a non-empty error string, and every
entry is exactly what the isolated single-host call produces. -/
theorem C4_aggregator_isolation (transport : List String → RunResult)
    (decode : String → Except String Dashboard)
    (servers : List (String × SrvCfg)) (k : String) (cfg : SrvCfg)
    (hmem : (k, cfg) ∈ servers)
    (hfail : hostFailed transport decode cfg = true) :
    (get_dashboards transport decode servers).length = servers.length ∧
    (k, get_dashboard transport decode cfg) ∈ get_dashboards transport decode servers ∧
    (get_dashboard transport decode cfg).queue = [] ∧
    (∃ e, (get_dashboard transport decode cfg).error = some e ∧ e ≠ "") ∧
    ∀ k2 cfg2, (k2, cfg2) ∈ servers →
      (k2, get_dashboard transport decode cfg2) ∈ get_dashboards transport decode servers := by
  refine ⟨?_, ?_, ?_, ?_, ?_⟩
  · unfold get_dashboards
    exact List.length_map _ _
  · unfold get_dashboards
    exact List.mem_map.mpr ⟨(k, cfg), hmem, rfl⟩
  · unfold hostFailed at hfail
    unfold get_dashboard
    rcases htr : transport ["ssh", cfg.host, remotePython cfg, "rc/dashboard.py"] with out | ⟨m, st⟩
    · rw [htr] at hfail
      have hstep : afterRun decode (RunResult.ok out) = afterDecode (decode out) := rfl
      have hstep2 : hostFailedRun decode (RunResult.ok out) = hostFailedDecode (decode out) := rfl
      rw [hstep]
      rw [hstep2] at hfail
      rcases hdec : decode out with e | d2
      · rfl
      · rw [hdec] at hfail
        cases hfail
    · rfl
  · unfold hostFailed at hfail
    unfold get_dashboard
    rcases htr : transport ["ssh", cfg.host, remotePython cfg, "rc/dashboard.py"] with out | ⟨m, st⟩
    · rw [htr] at hfail
      have hstep : afterRun decode (RunResult.ok out) = afterDecode (decode out) := rfl
      have hstep2 : hostFailedRun decode (RunResult.ok out) = hostFailedDecode (decode out) := rfl
      rw [hstep]
      rw [hstep2] at hfail
      rcases hdec : decode out with e | d2
      · exact ⟨"Failed to parse JSON: " ++ e, rfl,
          string_append_ne_empty _ e (by decide)⟩
      · rw [hdec] at hfail
        cases hfail
    · exact ⟨"Command failed: " ++ m, rfl, string_append_ne_empty _ m (by decide)⟩
  · intro k2 cfg2 h2
    unfold get_dashboards
    exact List.mem_map.mpr ⟨(k2, cfg2), h2, rfl⟩

/-- Witness for C4: with a transport that fails for b.example, the
two-host aggregation keeps both entries and the failed host's queue is
empty. -/
theorem C4_aggregator_isolation_witness :
    (get_dashboards ttransport tdecode [("a", cfgA), ("b", cfgB)]).length = 2 ∧
    (get_dashboard ttransport tdecode cfgB).queue = [] :=
  have h := C4_aggregator_isolation ttransport tdecode [("a", cfgA), ("b", cfgB)]
    "b" cfgB (by decide) (by decide)
  ⟨h.1, h.2.2.1⟩

/-- Claim C5, counterexample.  The claim asserts that the time_pending
field of an emitted record is the duration with sub-second precision
stripped.  The stored field keeps full microsecond precision (stripping
only happens later, in the menu-bar display formatter): at half a
second of pending time the field reads "0:00:00.500000". -/
theorem C5_counterexample :
    parse_queue dt1 500000 c5raw = .ok [c5jobFoo, c5jobBar] ∧
    c5jobFoo.status = "PENDING" ∧
    c5jobFoo.time_pending = some "0:00:00.500000" ∧
    stripSubseconds "0:00:00.500000" ≠ "0:00:00.500000" := by
  decide

/-- Claim C5, amended: in every record emitted by parse_queue, the
time_pending field is null for any non-PENDING status; when present it
equals str(now − time_started) at full precision, is only present for
PENDING status with a truthy (non-zero) duration, and the display layer
(format_job_label) renders it with the sub-second part stripped. -/
theorem C5_time_pending (dt : DT) (now : Int) (output : String)
    (jobs : List QJob) (hok : parse_queue dt now output = .ok jobs)
    (j : QJob) (hj : j ∈ jobs) :
    (j.status ≠ "PENDING" → j.time_pending = none) ∧
    (∀ tp, j.time_pending = some tp → j.status = "PENDING" ∧
      ∃ ts : Int, j.time_started = dt.isofmt ts ∧ now - ts ≠ 0 ∧
        tp = fmtTimedelta (now - ts) ∧
        format_job_label j = .ok (":hourglass_flowing_sand: " ++ j.job_name ++
          " (:clock2: " ++ fmtTimedeltaWhole (now - ts) ++ ")")) := by
  obtain ⟨l, hl, hpl⟩ := parseDataLines_mem dt now (dataLines output) jobs hok j hj
  obtain ⟨ts, hts, htp⟩ := parseLine_some_shape dt now l j hpl
  constructor
  · intro hst
    rw [htp, if_neg (fun hand => hst hand.1)]
  · intro tp htp2
    rw [htp] at htp2
    by_cases hcond : j.status = "PENDING" ∧ now - ts ≠ 0
    · rw [if_pos hcond] at htp2
      have htpv : tp = fmtTimedelta (now - ts) := by cases htp2; rfl
      refine ⟨hcond.1, ts, hts, hcond.2, htpv, ?_⟩
      unfold format_job_label
      rw [if_neg (by rw [hcond.1]; decide), if_pos hcond.1, htp, if_pos hcond]
      show Except.ok (":hourglass_flowing_sand: " ++ j.job_name ++ " (:clock2: " ++
        stripSubseconds (fmtTimedelta (now - ts)) ++ ")") = _
      rw [stripSubseconds_fmtTimedelta]
    · rw [if_neg hcond] at htp2
      cases htp2

/-- Witness for C5: the RUNNING record of the c5raw parse has a null
time_pending. -/
theorem C5_time_pending_witness : c5jobBar.time_pending = none :=
  (C5_time_pending dt1 500000 c5raw [c5jobFoo, c5jobBar] (by decide)
    c5jobBar (by decide)).1 (by decide)

/-- Claim C6: a data line with the correct field count whose fourth
field the datetime library rejects makes the whole parse_queue call
fail; the error propagates and no record list is returned. -/
theorem C6_fatal_bad_timestamp (dt : DT) (now : Int) (output : String)
    (l : List Char) (hmem : l ∈ dataLines output) (hb : pyStrip l ≠ [])
    (hlen : (splitOnChar '\t' l).length = 4)
    (hiso : dt.fromiso ⟨(splitOnChar '\t' l).getD 3 []⟩ = none) :
    exceptIsOk (parse_queue dt now output) = false := by
  unfold parse_queue
  exact parseDataLines_fatal dt now (dataLines output) l hmem hb hlen hiso

/-- Witness for C6: a line with the unparseable timestamp "garbage"
makes the whole parse fail. -/
theorem C6_fatal_bad_timestamp_witness :
    exceptIsOk (parse_queue dt1 0 c6raw) = false :=
  C6_fatal_bad_timestamp dt1 0 c6raw ("foo\tPENDING\t1:00\tgarbage".data)
    (by decide) (by decide) (by decide) (by decide)

/-- Claim C7: a data line whose tab-separated field count differs from
the expected four is silently excluded: the parse of the whole input
equals the parse of the remaining lines, so blank and malformed lines
never abort parsing and every subsequent well-formed line still
produces its record. -/
theorem C7_malformed_dropped (dt : DT) (now : Int) (output : String)
    (l₁ l₂ : List (List Char)) (bad : List Char)
    (hsplit : dataLines output = l₁ ++ bad :: l₂)
    (hbad : (splitOnChar '\t' bad).length ≠ 4) :
    parse_queue dt now output = parseDataLines dt now (l₁ ++ l₂) := by
  unfold parse_queue
  rw [hsplit]
  exact parseDataLines_skip dt now l₁ l₂ bad hbad

/-- Witness for C7: the 2-field line of c7raw is dropped and the two
well-formed lines around it are parsed as if it were absent. -/
theorem C7_malformed_dropped_witness :
    parse_queue dt1 0 c7raw = parseDataLines dt1 0
      ["foo\tRUNNING\t1:00:00\t2024-01-01T00:00:00".data,
       "bar\tPENDING\t-\t2024-01-01T00:00:00".data] :=
  C7_malformed_dropped dt1 0 c7raw
    ["foo\tRUNNING\t1:00:00\t2024-01-01T00:00:00".data]
    ["bar\tPENDING\t-\t2024-01-01T00:00:00".data]
    ("onlytwo\tfields".data) (by decide) (by decide)

/-- Claim C8: the activity time of an experiment directory is the
maximum modification time of its output/*.txt files when at least one
exists (regardless of the directory's own modification time), and the
directory's own modification time otherwise. -/
theorem C8_activity_time (e : FSEntry) :
    (e.outputTxtMtimes = [] → get_last_activity_time e = e.st_mtime) ∧
    (e.outputTxtMtimes ≠ [] → get_last_activity_time e ∈ e.outputTxtMtimes ∧
      ∀ t ∈ e.outputTxtMtimes, t ≤ get_last_activity_time e) := by
  constructor
  · intro h
    unfold get_last_activity_time
    rw [h]
  · intro h
    rcases hl : e.outputTxtMtimes with _ | ⟨t, ts⟩
    · exact absurd hl h
    · unfold get_last_activity_time
      rw [hl]
      refine ⟨?_, ?_⟩
      · show List.foldl max t ts ∈ t :: ts
        rcases foldl_max_mem t ts with hm | hm
        · rw [hm]
          exact List.mem_cons_self _ _
        · exact List.mem_cons_of_mem _ hm
      · show ∀ x ∈ t :: ts, x ≤ List.foldl max t ts
        intro x hx
        rcases List.mem_cons.mp hx with hx1 | hx2
        · subst hx1
          exact le_foldl_max_init x ts
        · exact le_foldl_max_of_mem t x ts hx2

/-- Witness for C8: a directory without artifacts falls back to its own
mtime, a directory with artifacts reports one of their mtimes. -/
theorem C8_activity_time_witness :
    get_last_activity_time e8b = e8b.st_mtime ∧
    get_last_activity_time e8a ∈ e8a.outputTxtMtimes :=
  ⟨(C8_activity_time e8b).1 rfl, ((C8_activity_time e8a).2 (by decide)).1⟩

/-- Claim C9: a directory whose name equals a current queue job name is
never emitted by get_recent, however it stands with respect to the two
cutoffs: no emitted record carries its name. -/
theorem C9_queued_experiment_excluded (dt : DT) (root : List FSEntry)
    (cc ac : Int) (q : List QJob) (e : FSEntry) (he : e ∈ root)
    (hq : (q.map (fun j => j.job_name)).contains e.name = true) :
    ∀ r ∈ get_recent dt root cc ac q, r.experiment_name ≠ e.name := by
  intro r hr
  obtain ⟨e2, _, _, _, _, hq2, hr2⟩ := (mem_get_recent dt root cc ac q r).mp hr
  intro hname
  rw [hr2] at hname
  have hname2 : e2.name = e.name := hname
  rw [hname2] at hq2
  rw [hq2] at hq
  cases hq

/-- Witness for C9: with exp-queued present in the queue, the only
emitted record is the free experiment, whose name differs. -/
theorem C9_queued_experiment_excluded_witness :
    ({ experiment_name := "exp-free", time_activity := "" } : ExpRecord).experiment_name
      ≠ "exp-queued" :=
  C9_queued_experiment_excluded dt1 [e9a, e9b] 0 0 q9 e9b (by decide) (by decide)
    { experiment_name := "exp-free", time_activity := "" } (by decide)

/-- Claim C10: a valid PENDING line whose start time equals the current
clock reading parses to a record whose time_pending is null, because
the zero-length duration is falsy in the emitting conditional. -/
theorem C10_zero_pending_null :
    parse_queue dt1 0 "NAME\tSTATE\tTIME\tSTART\nfoo\tPENDING\t1:00\t2024-01-01T00:00:00\n" =
      .ok [c10job] ∧ c10job.status = "PENDING" ∧ c10job.time_pending = none := by
  decide
